import Mathlib

/-!
Verification of the LanguageTool chat-composer plugin (`vc-languageTools`).

A shallow embedding of the plugin's source files:
  - `src/utils/parser.ts`  (match classification and filtering),
  - `src/utils/cache.ts`   (check-result cache, durable ignored-word store),
  - `src/utils/api.ts`     (`checkText`, `queueCheck` request spacing),
  - `src/index.tsx`        (edit pipeline fragment, caret arithmetic).

JavaScript strings are modelled as `List Char` (`JsStr`), one element per
code unit; JS `Map` and `Set` objects as insertion-ordered lists.  External
platform collaborators (the network `fetch`, `DataStore`, timers, and the
WHATWG `URL` constructor) are modelled as explicit parameters/state, as
noted at the corresponding definitions.
-/

set_option linter.unusedVariables false

namespace VcLanguageTools

abbrev JsStr := List Char

/-- The backtick character, code point 96. -/
def backtickChar : Char := Char.ofNat 96

/-- Embeds `String.prototype.substring(a, b)`: clamps both indices to
`[0, length]` and swaps them if `a > b` (indices here are `Nat`, so the
negative-index clamp is vacuous). -/
def jsSubstring (s : JsStr) (a b : Nat) : JsStr :=
  let a1 := min a s.length
  let b1 := min b s.length
  (s.take (max a1 b1)).drop (min a1 b1)

/-- Embeds `String.prototype.toLowerCase()`, modelled per-character by
`Char.toLower` (exact on the ASCII inputs this development evaluates). -/
def jsToLower (s : JsStr) : JsStr := s.map Char.toLower

/-- JS `WhiteSpace ∪ LineTerminator` membership used by
`String.prototype.trim()`; covers the ASCII whitespace characters plus
NBSP and the zero-width no-break space (U+FEFF), which is all this
development evaluates on. -/
def isJsWhitespace (c : Char) : Bool :=
  c = ' ' || c = '\t' || c = '\n' || c = '\r' ||
  c = Char.ofNat 11 || c = Char.ofNat 12 ||
  c = Char.ofNat 0xa0 || c = Char.ofNat 0xfeff

/-- Embeds `String.prototype.trim()`. -/
def jsTrim (s : JsStr) : JsStr :=
  (s.dropWhile isJsWhitespace).reverse.dropWhile isJsWhitespace |>.reverse

/-- Tests whether `needle` occurs at the start of `hay`. -/
def listLeads : JsStr → JsStr → Bool
  | [], _ => true
  | _ :: _, [] => false
  | c :: cs, d :: ds => c = d && listLeads cs ds

/-- Embeds `String.prototype.includes(needle)`. -/
def jsIncludes (hay needle : JsStr) : Bool :=
  (List.range (hay.length + 1)).any (fun i => listLeads needle (hay.drop i))

/-- Embeds `String.prototype.indexOf(needle)`, `-1` when absent. -/
def jsIndexOf (hay needle : JsStr) : Int :=
  match (List.range (hay.length + 1)).find? (fun i => listLeads needle (hay.drop i)) with
  | some i => (i : Int)
  | none => -1

/-- Embeds `String.prototype.lastIndexOf(needle)`, `-1` when absent. -/
def jsLastIndexOf (hay needle : JsStr) : Int :=
  match ((List.range (hay.length + 1)).filter
      (fun i => listLeads needle (hay.drop i))).getLast? with
  | some i => (i : Int)
  | none => -1

/-- Regex `\d` (ASCII digits; the source regexes run without the unicode
flag). -/
def isRegexDigit (c : Char) : Bool := c.isDigit

/-- Regex `\w`: `[A-Za-z0-9_]`. -/
def isRegexWordChar (c : Char) : Bool := c.isAlpha || c.isDigit || c = '_'

/-- Matches `\d+>` at the end of the string: at least one digit, then `>`, then
end of input. -/
def digitsThenGt (s : JsStr) : Bool :=
  match s.getLast? with
  | some c =>
      c = '>' && s.dropLast ≠ [] && s.dropLast.all isRegexDigit
  | none => false

/- ---------------------------------------------------------------------
   src/types.ts — the oracle response data model (fields the code uses).
--------------------------------------------------------------------- -/

structure RuleCategory where
  id : JsStr
  name : JsStr
deriving DecidableEq, Repr

structure Rule where
  id : JsStr
  description : JsStr
  issueType : JsStr
  category : RuleCategory
deriving DecidableEq, Repr

/-- Embeds `LanguageToolMatch` (`src/types.ts`): the fields the plugin reads.
`replacements` keeps only the `value` strings, as `getReplacements` does. -/
structure LanguageToolMatch where
  message : JsStr
  offset : Nat
  length : Nat
  replacements : List JsStr
  rule : Rule
deriving DecidableEq, Repr

structure LanguageToolResponse where
  «matches» : List LanguageToolMatch
deriving DecidableEq, Repr

inductive IssueType
  | spelling
  | grammar
  | style
deriving DecidableEq, Repr

/-- Embeds `UnderlinePosition` (`src/types.ts`).  The source field names `end`
and `match` are Lean keywords; they are rendered `stop` and `srcMatch`. -/
structure UnderlinePosition where
  start : Nat
  stop : Nat
  type : IssueType
  srcMatch : LanguageToolMatch
deriving DecidableEq, Repr

/-- The configuration options (`src/settings.ts`) that the embedded code
paths read. -/
structure Settings where
  enabled : Bool
  checkSpelling : Bool
  checkGrammar : Bool
  showStyleSuggestions : Bool
  maxCharacters : Nat
  debounceDelay : Nat
deriving DecidableEq, Repr

/-- The defaults declared in `src/settings.ts`. -/
def defaultSettings : Settings :=
  { enabled := true
    checkSpelling := true
    checkGrammar := true
    showStyleSuggestions := true
    maxCharacters := 2000
    debounceDelay := 600 }

/- ---------------------------------------------------------------------
   src/utils/cache.ts — ignored-word (durable suppression) store.
   `DataStore` is the external key-value persistence collaborator; its
   value under the fixed key is carried as explicit state (`dataStore`),
   with reads assumed to succeed (the `catch` fallback is not exercised
   by any claim).  JS `Set` objects are insertion-ordered duplicate-free
   lists; `Set.add`/`Set.delete` become `setAdd`/`setDelete`.
--------------------------------------------------------------------- -/

structure IgnoredWord where
  word : JsStr
  timestamp : Nat
deriving DecidableEq, Repr

structure SuppressionState where
  ignoredWordsCache : Option (List JsStr)
  dataStore : List IgnoredWord
deriving DecidableEq, Repr

/-- Embeds `Set.prototype.add` on the insertion-ordered list model. -/
def setAdd (s : List JsStr) (w : JsStr) : List JsStr :=
  if s.contains w then s else s ++ [w]

/-- Embeds `Set.prototype.delete` on the model (a JS `Set` holds no duplicates,
so removing every occurrence coincides with deleting the element). -/
def setDelete (s : List JsStr) (w : JsStr) : List JsStr :=
  s.filter (fun x => x ≠ w)

/-- Embeds `new Set(iterable)`. -/
def setFromList (l : List JsStr) : List JsStr := l.foldl setAdd []

/-- Embeds `loadIgnoredWords`: returns the cached set if present, otherwise
builds it from the persisted `{word, timestamp}` records (lower-casing
each word) and installs it as the cache. -/
def loadIgnoredWords (st : SuppressionState) : List JsStr × SuppressionState :=
  match st.ignoredWordsCache with
  | some c => (c, st)
  | none =>
      let c := setFromList (st.dataStore.map (fun w => jsToLower w.word))
      (c, { st with ignoredWordsCache := some c })

/-- Embeds `addIgnoredWord(word)` at wall-clock time `now`.  In the source the
loaded `Set` is the module cache itself, so both the `words.add` and the
trailing `ignoredWordsCache.add` mutate the same object; the model
therefore installs the updated set as the new cache. -/
def addIgnoredWord (now : Nat) (word : JsStr) (st : SuppressionState) : SuppressionState :=
  let load := loadIgnoredWords st
  let lowerWord := jsToLower word
  let words := setAdd load.1 lowerWord
  let wordsArray := words.map (fun w => ({ word := w, timestamp := now } : IgnoredWord))
  { ignoredWordsCache := some words, dataStore := wordsArray }

/-- Embeds `removeIgnoredWord(word)` at wall-clock time `now` (same aliasing
remark as `addIgnoredWord`). -/
def removeIgnoredWord (now : Nat) (word : JsStr) (st : SuppressionState) : SuppressionState :=
  let load := loadIgnoredWords st
  let lowerWord := jsToLower word
  let words := setDelete load.1 lowerWord
  let wordsArray := words.map (fun w => ({ word := w, timestamp := now } : IgnoredWord))
  { ignoredWordsCache := some words, dataStore := wordsArray }

/-- Embeds `isWordIgnored(word)`: `false` while the cache is unloaded, else a
case-insensitive membership test. -/
def isWordIgnored (st : SuppressionState) (word : JsStr) : Bool :=
  match st.ignoredWordsCache with
  | none => false
  | some c => c.contains (jsToLower word)

/- ---------------------------------------------------------------------
   src/utils/parser.ts
--------------------------------------------------------------------- -/

/-- Embeds `categorizeMatch` (`src/utils/parser.ts`). -/
def categorizeMatch (m : LanguageToolMatch) : IssueType :=
  let issueType := jsToLower m.rule.issueType
  let categoryId := jsToLower m.rule.category.id
  if jsIncludes issueType "misspelling".data || jsIncludes categoryId "typo".data then
    .spelling
  else if jsIncludes issueType "style".data || jsIncludes categoryId "style".data ||
      jsIncludes categoryId "redundancy".data then
    .style
  else
    .grammar

/-- Embeds `shouldShowMatchType` (`src/utils/parser.ts`), with the settings
store passed explicitly. -/
def shouldShowMatchType (s : Settings) (type : IssueType) : Bool :=
  if type = .spelling && !s.checkSpelling then false
  else if type = .grammar && !s.checkGrammar then false
  else if type = .style && !s.showStyleSuggestions then false
  else true

/-- Embeds `isDiscordMarkdown`: one of `^\*+$`, `^_+$`, `^~+$`, a run of
backticks, or `^>+$` matches the flagged substring (the `fullText` and
`offset` arguments are unused in the source too). -/
def isDiscordMarkdown (matchText : JsStr) (fullText : JsStr) (offset : Nat) : Bool :=
  let isRun (c : Char) : Bool := matchText ≠ [] && matchText.all (fun d => d = c)
  isRun '*' || isRun '_' || isRun '~' || isRun backtickChar || isRun '>'

/-- Embeds `isDiscordMention`: `^<@!?\d+>$ || ^<@&\d+>$ || ^<#\d+>$`. -/
def isDiscordMention (text : JsStr) : Bool :=
  match text with
  | '<' :: '@' :: '!' :: rest => digitsThenGt rest
  | '<' :: '@' :: '&' :: rest => digitsThenGt rest
  | '<' :: '@' :: rest => digitsThenGt rest
  | '<' :: '#' :: rest => digitsThenGt rest
  | _ => false

/-- Matches `\w+:\d+>` at the end of the string (`\w` cannot match `:`, so the
greedy split at the first non-word character is exact). -/
def emojiBody (s : JsStr) : Bool :=
  let w := s.takeWhile isRegexWordChar
  let rest := s.dropWhile isRegexWordChar
  w ≠ [] &&
    match rest with
    | ':' :: r2 => digitsThenGt r2
    | _ => false

/-- Embeds `isDiscordEmoji`: `^<a?:\w+:\d+>$`. -/
def isDiscordEmoji (text : JsStr) : Bool :=
  match text with
  | '<' :: 'a' :: ':' :: rest => emojiBody rest
  | '<' :: ':' :: rest => emojiBody rest
  | _ => false

/-- Scheme characters allowed after the first character of a URL scheme. -/
def isSchemeChar (c : Char) : Bool :=
  c.isAlpha || c.isDigit || c = '+' || c = '-' || c = '.'

/-- A syntactically valid URL scheme: nonempty, ASCII letter first. -/
def validScheme (s : JsStr) : Bool :=
  match s with
  | [] => false
  | c :: rest => c.isAlpha && rest.all isSchemeChar

/-- Modelled from the host platform: success of the WHATWG `new URL(s)`
constructor (a browser API external to this repository).  Approximation:
a valid scheme followed by `:`; the special network schemes additionally
require `//` and a nonempty host.  Exact on every input this development
evaluates (`""`, a backtick-quoted code span, `https://example.com`). -/
def urlCanParse (s : JsStr) : Bool :=
  let scheme := s.takeWhile (fun c => c ≠ ':')
  match s.dropWhile (fun c => c ≠ ':') with
  | ':' :: after =>
      validScheme scheme &&
        (if (jsToLower scheme) = "http".data || (jsToLower scheme) = "https".data ||
            (jsToLower scheme) = "ws".data || (jsToLower scheme) = "wss".data ||
            (jsToLower scheme) = "ftp".data then
          match after with
          | '/' :: '/' :: hostPart =>
              hostPart.takeWhile (fun c => c ≠ '/' && c ≠ '?' && c ≠ '#') ≠ []
          | _ => false
        else true)
  | _ => false

/-- Embeds `isURL`: `new URL(text)` succeeds, or (the `catch` arm) the text
matches `^https?:\/\/`. -/
def isURL (text : JsStr) : Bool :=
  urlCanParse text ||
    (listLeads "http://".data text || listLeads "https://".data text)

/-- Embeds `isCodeBlock(text, offset)` (`src/utils/parser.ts`): the fenced /
inline code-span heuristic, with JS `lastIndexOf`/`indexOf` returning
`-1` for absence. -/
def isCodeBlock (text : JsStr) (offset : Nat) : Bool :=
  let tripleTick : JsStr := [backtickChar, backtickChar, backtickChar]
  let beforeText := jsSubstring text 0 offset
  let afterText := jsSubstring text offset text.length
  let codeBlockStart := jsLastIndexOf beforeText tripleTick
  if codeBlockStart = -1 then false
  else
    let codeBlockEnd := jsIndexOf afterText tripleTick
    if codeBlockEnd = -1 then false
    else
      let inlineCodeBefore := beforeText.count backtickChar
      let inlineCodeAfter := afterText.count backtickChar
      if inlineCodeBefore % 2 = 1 && inlineCodeAfter % 2 = 1 then true
      else codeBlockStart > jsLastIndexOf beforeText (tripleTick ++ ['\n'])

/-- Embeds `shouldSkipMatch` (`src/utils/parser.ts`). -/
def shouldSkipMatch (m : LanguageToolMatch) (text : JsStr) : Bool :=
  let matchText := jsSubstring text m.offset (m.offset + m.length)
  if isDiscordMarkdown matchText text m.offset then true
  else if isDiscordMention matchText then true
  else if isDiscordEmoji matchText then true
  else if isURL matchText then true
  else if isCodeBlock text m.offset then true
  else false

/-- The `UnderlinePosition` that `parseMatches` pushes for a surviving
match. -/
def mkPosition (m : LanguageToolMatch) : UnderlinePosition :=
  { start := m.offset
    stop := m.offset + m.length
    type := categorizeMatch m
    srcMatch := m }

/-- The `for (const match of response.matches)` loop body of
`parseMatches`, with the settings store and the module-level
suppression state passed explicitly. -/
def parseMatchesLoop (s : Settings) (supp : SuppressionState) (text : JsStr) :
    List LanguageToolMatch → List UnderlinePosition
  | [] => []
  | m :: ms =>
      if shouldSkipMatch m text then parseMatchesLoop s supp text ms
      else
        let type := categorizeMatch m
        if !shouldShowMatchType s type then parseMatchesLoop s supp text ms
        else
          let word := jsSubstring text m.offset (m.offset + m.length)
          if isWordIgnored supp word then parseMatchesLoop s supp text ms
          else mkPosition m :: parseMatchesLoop s supp text ms

/-- Embeds `parseMatches(response, text)` (`src/utils/parser.ts`); `response`
is `Option`-valued to mirror the `!response` guard. -/
def parseMatches (s : Settings) (supp : SuppressionState)
    (response : Option LanguageToolResponse) (text : JsStr) : List UnderlinePosition :=
  match response with
  | none => []
  | some r => parseMatchesLoop s supp text r.matches

/-- Embeds `applySuggestion(text, match, replacement)` (`src/utils/parser.ts`). -/
def applySuggestion (text : JsStr) (m : LanguageToolMatch) (replacement : JsStr) : JsStr :=
  jsSubstring text 0 m.offset ++ replacement ++
    jsSubstring text (m.offset + m.length) text.length

/- ---------------------------------------------------------------------
   src/utils/cache.ts — check-result cache.  The JS `Map` is modelled as
   an insertion-ordered association list; `Date.now()` is passed in as
   `now`.
--------------------------------------------------------------------- -/

/-- Embeds `CachedCheck` (`src/types.ts`). -/
structure CachedCheck where
  text : JsStr
  response : LanguageToolResponse
  timestamp : Nat
deriving DecidableEq, Repr

/-- The module-level `checkCache` map, insertion-ordered. -/
structure CheckCacheState where
  checkCache : List (JsStr × CachedCheck)
deriving DecidableEq, Repr

def CACHE_TTL : Nat := 5 * 60 * 1000

/-- Embeds `Map.prototype.get`. -/
def mapGet (m : List (JsStr × CachedCheck)) (k : JsStr) : Option CachedCheck :=
  (m.find? (fun e => e.1 = k)).map (fun e => e.2)

/-- Embeds `Map.prototype.set`: update in place if the key exists, else append. -/
def mapSet (m : List (JsStr × CachedCheck)) (k : JsStr) (v : CachedCheck) :
    List (JsStr × CachedCheck) :=
  match m with
  | [] => [(k, v)]
  | e :: rest => if e.1 = k then (k, v) :: rest else e :: mapSet rest k v

/-- Embeds `Map.prototype.delete` (keys are unique in a JS `Map`, so removing
the first occurrence is exact). -/
def mapDelete (m : List (JsStr × CachedCheck)) (k : JsStr) :
    List (JsStr × CachedCheck) :=
  match m with
  | [] => []
  | e :: rest => if e.1 = k then rest else e :: mapDelete rest k

/-- Embeds `getCachedCheck(text)` at time `now`: a read that evicts an entry
older than `CACHE_TTL` and reports a miss for it. -/
def getCachedCheck (now : Nat) (text : JsStr) (st : CheckCacheState) :
    Option LanguageToolResponse × CheckCacheState :=
  match mapGet st.checkCache text with
  | none => (none, st)
  | some cached =>
      if CACHE_TTL < now - cached.timestamp then
        (none, ⟨mapDelete st.checkCache text⟩)
      else
        (some cached.response, st)

/-- Embeds `setCachedCheck(text, response)` at time `now`: insert, then if the
map has grown past 50 entries evict the first (oldest-inserted) key. -/
def setCachedCheck (now : Nat) (text : JsStr) (response : LanguageToolResponse)
    (st : CheckCacheState) : CheckCacheState :=
  let m := mapSet st.checkCache text ⟨text, response, now⟩
  if 50 < m.length then
    match m with
    | [] => ⟨m⟩
    | e :: _ => ⟨mapDelete m e.1⟩
  else ⟨m⟩

/- ---------------------------------------------------------------------
   src/utils/api.ts — checkText and the queueCheck spacing guard.  The
   network (`fetch` + JSON parsing) is an external collaborator; one
   call's observable outcome is a `NetOutcome`.
--------------------------------------------------------------------- -/

/-- Outcome of one network round-trip: `success` is a 2xx response whose
body parsed; `httpFailure status` is `!response.ok`; `transportFailure`
is a rejected `fetch` or a body that failed to parse. -/
inductive NetOutcome
  | success (response : LanguageToolResponse)
  | httpFailure (status : Nat)
  | transportFailure
deriving DecidableEq, Repr

/-- What one `checkText` call returns and does: its result, the check
cache afterwards, and whether it issued a network call. -/
structure CheckTextResult where
  result : Option LanguageToolResponse
  state : CheckCacheState
  networked : Bool
deriving DecidableEq, Repr

/-- Embeds `checkText(text)` (`src/utils/api.ts`) at time `now`, with the
network's behaviour for the (at most one) call it issues given as
`net`.  Blank input returns `null` before the cache lookup; a cache hit
returns without a network call; HTTP 429 returns `null`; any other
non-2xx status throws inside the `try` and is caught, returning `null`;
transport/parse failures are likewise caught.  The function never
throws to its caller (it is total and `Option`-valued). -/
def checkText (now : Nat) (net : NetOutcome) (text : JsStr)
    (st : CheckCacheState) : CheckTextResult :=
  if jsTrim text = [] then ⟨none, st, false⟩
  else
    match getCachedCheck now text st with
    | (some cached, st1) => ⟨some cached, st1, false⟩
    | (none, st1) =>
        match net with
        | .success response => ⟨some response, setCachedCheck now text response st1, true⟩
        | .httpFailure status =>
            if status = 429 then ⟨none, st1, true⟩       -- soft rate-limit: return null
            else ⟨none, st1, true⟩                        -- throw, caught below: return null
        | .transportFailure => ⟨none, st1, true⟩          -- caught: return null

/-- Holds when `net` is a failure outcome (non-2xx status or transport error). -/
def NetOutcome.isFailure : NetOutcome → Bool
  | .success _ => false
  | .httpFailure _ => true
  | .transportFailure => true

def MIN_REQUEST_INTERVAL : Nat := 3000

/-- The module-level `queueCheck` state: `lastRequestTime`, plus the
single-slot `requestQueue`/`rateLimitTimeout` pair, carried as the
pending request's text together with the absolute time its timer is
scheduled to fire. -/
structure QueueState where
  lastRequestTime : Nat
  pending : Option (Nat × JsStr)
deriving DecidableEq, Repr

/-- The state `queueCheck` starts from when the module loads. -/
def initialQueueState : QueueState := ⟨0, none⟩

/-- Event-loop step: a timer whose scheduled fire time has arrived runs
before any later work; firing emits the pending request's network call
(stamping `lastRequestTime = Date.now()`, the fire time). -/
def fireIfDue (s : QueueState) (now : Nat) : QueueState × List (Nat × JsStr) :=
  match s.pending with
  | some (tf, x) =>
      if tf ≤ now then (⟨tf, none⟩, [(tf, x)])
      else (s, [])
  | none => (s, [])

/-- One `queueCheck(text, _)` invocation at time `now` (`src/utils/api.ts`),
after the event loop has run any due timer.  If the minimum interval has
elapsed the call fires immediately; otherwise the (single-slot) pending
request is replaced and its timer rescheduled at
`now + (MIN_REQUEST_INTERVAL - timeSinceLastRequest)`.  Returns the new
state and the network calls issued, as `(time, text)` pairs. -/
def queueCheckStep (s : QueueState) (now : Nat) (text : JsStr) :
    QueueState × List (Nat × JsStr) :=
  let fire := fireIfDue s now
  let s1 := fire.1
  let timeSinceLastRequest := now - s1.lastRequestTime
  if MIN_REQUEST_INTERVAL ≤ timeSinceLastRequest then
    ({ s1 with lastRequestTime := now }, fire.2 ++ [(now, text)])
  else
    ({ s1 with
        pending := some (now + (MIN_REQUEST_INTERVAL - timeSinceLastRequest), text) },
      fire.2)

/-- Run a whole trace of `queueCheck` invocations (each a `(time, text)`
pair) and let the final pending timer, if any, fire.  The output is the
chronological list of issued network calls. -/
def runQueue (s : QueueState) : List (Nat × JsStr) → List (Nat × JsStr)
  | [] =>
      match s.pending with
      | some (tf, x) => [(tf, x)]
      | none => []
  | (t, x) :: rest =>
      let step := queueCheckStep s t x
      step.2 ++ runQueue step.1 rest

/- ---------------------------------------------------------------------
   src/index.tsx — the synchronous decision structure of
   `handleTextChange`, and the caret arithmetic of the suggestion
   handler in `showTooltip`.
--------------------------------------------------------------------- -/

/-- The zero-width no-break space `"﻿"` checked by the message-send
heuristic. -/
def zeroWidthChar : Char := Char.ofNat 0xfeff

/-- The module-level state `handleTextChange` reads and writes:
`sessionIgnoredWords` (the volatile suppression tier), `lastTextLength`,
`currentText`, `currentPositions`, and the mounted underline elements
(modelled by the positions they render). -/
structure PipelineState where
  sessionIgnoredWords : List JsStr
  lastTextLength : Nat
  currentText : JsStr
  currentPositions : List UnderlinePosition
  underlineElements : List UnderlinePosition
deriving DecidableEq, Repr

/-- How one `handleTextChange` call ends. -/
inductive EditOutcome
  | disabled        -- plugin disabled: early return
  | clearedEmpty    -- empty text: issues and underlines cleared, return
  | tooLong         -- text over the budget: return without scheduling a check
  | scheduled       -- debounce timer (re)started for a check of this text
deriving DecidableEq, Repr

/-- The synchronous part of `handleTextChange(textArea)`
(`src/index.tsx`), with the observed composer text passed explicitly.
Everything after the debounce timer is scheduled (the asynchronous
check → parse → render continuation) is summarised by the
`EditOutcome.scheduled` outcome. -/
def handleTextChange (s : Settings) (st : PipelineState) (text : JsStr) :
    PipelineState × EditOutcome :=
  if !s.enabled then (st, .disabled)
  else
    let st := { st with currentText := text }
    let trimmedText := jsTrim text
    let isEmpty := trimmedText.length = 0 || trimmedText = [zeroWidthChar]
    let st :=
      if decide (5 < st.lastTextLength) && isEmpty then
        { st with sessionIgnoredWords := [] }
      else st
    let st := { st with lastTextLength := trimmedText.length }
    if text.length = 0 then
      ({ st with currentPositions := [], underlineElements := [] }, .clearedEmpty)
    else if s.maxCharacters < text.length then
      (st, .tooLong)
    else
      (st, .scheduled)

/-- The corrected caret offset computed by the suggestion handler in
`showTooltip` (`src/index.tsx`): shift by the length delta when the
caret sat strictly past the replaced span, clamp to the end of the
replacement when it sat strictly inside, else leave it. -/
def computeNewCursorPos (cursorPos : Nat) (m : LanguageToolMatch)
    (replacement : JsStr) : Int :=
  let lengthDiff : Int := (replacement.length : Int) - (m.length : Int)
  if m.offset + m.length < cursorPos then (cursorPos : Int) + lengthDiff
  else if m.offset < cursorPos then (m.offset : Int) + (replacement.length : Int)
  else (cursorPos : Int)

/- ---------------------------------------------------------------------
   Shared fixtures and helper lemmas.
--------------------------------------------------------------------- -/

/-- A typical misspelling rule, as in the end-to-end scenario of the
specification. -/
def typoRule : Rule :=
  { id := [], description := [], issueType := "misspelling".data
    category := { id := "TYPOS".data, name := [] } }

/-- The suppression store before anything is loaded or added. -/
def emptySuppression : SuppressionState := ⟨none, []⟩

/-- Soundness of the `parseMatches` loop: every emitted position comes
from a listed match that passed all three filters. -/
theorem parseMatchesLoop_sound (s : Settings) (supp : SuppressionState) (text : JsStr)
    (ms : List LanguageToolMatch) (p : UnderlinePosition)
    (hp : p ∈ parseMatchesLoop s supp text ms) :
    ∃ m, m ∈ ms ∧ p = mkPosition m ∧ shouldSkipMatch m text = false ∧
      shouldShowMatchType s (categorizeMatch m) = true ∧
      isWordIgnored supp (jsSubstring text m.offset (m.offset + m.length)) = false := by
  induction ms with
  | nil => simp [parseMatchesLoop] at hp
  | cons m ms ih =>
      rw [parseMatchesLoop] at hp
      by_cases hskip : shouldSkipMatch m text = true
      · rw [if_pos hskip] at hp
        obtain ⟨m1, hm1, rest⟩ := ih hp
        exact ⟨m1, List.mem_cons_of_mem _ hm1, rest⟩
      · rw [if_neg hskip] at hp
        by_cases hshow : shouldShowMatchType s (categorizeMatch m) = true
        · rw [if_neg (by simp [hshow])] at hp
          by_cases hign :
              isWordIgnored supp (jsSubstring text m.offset (m.offset + m.length)) = true
          · rw [if_pos hign] at hp
            obtain ⟨m1, hm1, rest⟩ := ih hp
            exact ⟨m1, List.mem_cons_of_mem _ hm1, rest⟩
          · rw [if_neg hign] at hp
            rcases List.mem_cons.mp hp with h | h
            · exact ⟨m, List.mem_cons_self .., h,
                Bool.not_eq_true _ ▸ hskip, hshow, Bool.not_eq_true _ ▸ hign⟩
            · obtain ⟨m1, hm1, rest⟩ := ih h
              exact ⟨m1, List.mem_cons_of_mem _ hm1, rest⟩
        · rw [if_pos (by simp [Bool.not_eq_true _ ▸ hshow])] at hp
          obtain ⟨m1, hm1, rest⟩ := ih hp
          exact ⟨m1, List.mem_cons_of_mem _ hm1, rest⟩

/-- Completeness of the `parseMatches` loop: a listed match that passes
all three filters contributes its position. -/
theorem parseMatchesLoop_complete (s : Settings) (supp : SuppressionState) (text : JsStr)
    (ms : List LanguageToolMatch) (m : LanguageToolMatch)
    (hm : m ∈ ms) (hskip : shouldSkipMatch m text = false)
    (hshow : shouldShowMatchType s (categorizeMatch m) = true)
    (hign : isWordIgnored supp (jsSubstring text m.offset (m.offset + m.length)) = false) :
    mkPosition m ∈ parseMatchesLoop s supp text ms := by
  induction ms with
  | nil => simp at hm
  | cons m1 ms ih =>
      rw [parseMatchesLoop]
      rcases List.mem_cons.mp hm with heq | hmem
      · subst heq
        rw [if_neg (by simp [hskip]), if_neg (by simp [hshow]), if_neg (by simp [hign])]
        exact List.mem_cons_self ..
      · by_cases h1 : shouldSkipMatch m1 text = true
        · rw [if_pos h1]; exact ih hmem
        · rw [if_neg h1]
          by_cases h2 : shouldShowMatchType s (categorizeMatch m1) = true
          · rw [if_neg (by simp [h2])]
            by_cases h3 :
                isWordIgnored supp (jsSubstring text m1.offset (m1.offset + m1.length)) = true
            · rw [if_pos h3]; exact ih hmem
            · rw [if_neg h3]; exact List.mem_cons_of_mem _ (ih hmem)
          · rw [if_pos (by simp [Bool.not_eq_true _ ▸ h2])]; exact ih hmem

/- ---------------------------------------------------------------------
   C1 — the Issue bounds invariant.
--------------------------------------------------------------------- -/

/-- A malformed oracle response for C1: a match whose span
`[5, 5 + 2)` lies past the end of the three-character text. -/
def outOfRangeMatch : LanguageToolMatch :=
  { message := [], offset := 5, length := 2, replacements := [], rule := typoRule }

/-- C1, counterexample.  `parseMatches` copies `offset`/`offset + length`
into the issue without validating them against the text, so an oracle
response whose match lies beyond the end of the text yields an issue
with `end > len(text)`: the invariant does not hold for every oracle
response. -/
theorem C1_bounds_counterexample :
    ¬ (∀ p ∈ parseMatches defaultSettings emptySuppression
          (some ⟨[outOfRangeMatch]⟩) "abc".data,
        p.start < p.stop ∧ p.stop ≤ ("abc".data).length) := by
  intro h
  have := h (mkPosition outOfRangeMatch) (by decide)
  simp [mkPosition, outOfRangeMatch] at this

/-- C1, amended: for every oracle response whose matches all carry a
positive length and lie within the text, every issue in the list
returned by `parseMatches(response, text)` satisfies
`0 ≤ start < end ≤ len(text)`. -/
theorem C1_bounds (s : Settings) (supp : SuppressionState)
    (r : LanguageToolResponse) (text : JsStr)
    (hwf : ∀ m ∈ r.matches, 0 < m.length ∧ m.offset + m.length ≤ text.length) :
    ∀ p ∈ parseMatches s supp (some r) text,
      0 ≤ p.start ∧ p.start < p.stop ∧ p.stop ≤ text.length := by
  intro p hp
  obtain ⟨m, hm, hpeq, -, -, -⟩ := parseMatchesLoop_sound s supp text r.matches p hp
  obtain ⟨hlen, hin⟩ := hwf m hm
  subst hpeq
  simp only [mkPosition]
  omega

/-- The match of the end-to-end scenario in the specification: `"Teh"`
flagged at `[0, 3)` in `"Teh cat sat."`. -/
def tehMatch : LanguageToolMatch :=
  { message := [], offset := 0, length := 3, replacements := ["The".data], rule := typoRule }

/-- The one-match oracle response of the end-to-end scenario. -/
def tehResponse : LanguageToolResponse := ⟨[tehMatch]⟩

/-- Witness for C1 at the end-to-end scenario input of the
specification. -/
theorem C1_bounds_witness :
    (∀ m ∈ tehResponse.matches,
        0 < m.length ∧ m.offset + m.length ≤ ("Teh cat sat.".data).length) ∧
    (∀ p ∈ parseMatches defaultSettings emptySuppression
        (some tehResponse) "Teh cat sat.".data,
      0 ≤ p.start ∧ p.start < p.stop ∧ p.stop ≤ ("Teh cat sat.".data).length) :=
  ⟨by decide, C1_bounds defaultSettings emptySuppression _ _ (by decide)⟩

/- ---------------------------------------------------------------------
   C5 — filter exclusions (markup / mention / URL / code spans).
--------------------------------------------------------------------- -/

/-- From a match that was not skipped, each individual skip test on its
flagged substring is negative. -/
theorem not_skipped_parts (m : LanguageToolMatch) (text : JsStr)
    (h : shouldSkipMatch m text = false) :
    isDiscordMention (jsSubstring text m.offset (m.offset + m.length)) = false ∧
    isURL (jsSubstring text m.offset (m.offset + m.length)) = false := by
  rw [shouldSkipMatch] at h
  split_ifs at h with h1 h2 h3 h4 h5
  exact ⟨Bool.not_eq_true _ ▸ h2, Bool.not_eq_true _ ▸ h4⟩

/-- An inline code span flagged in a text with no fenced-code context:
the claim says it is excluded, the code keeps it. -/
def inlineCodeMatch : LanguageToolMatch :=
  { message := [], offset := 2, length := 6, replacements := [], rule := typoRule }

/-- The text `"a (backtick)code(backtick) b"` around the span of
`inlineCodeMatch`. -/
def inlineCodeText : JsStr :=
  "a ".data ++ [backtickChar] ++ "code".data ++ [backtickChar] ++ " b".data

/-- C5, counterexample.  A flagged span exactly equal to the
backtick-quoted word `code` is NOT excluded in general: the inline-code
filter (`isCodeBlock`) only fires when a triple-backtick fence occurs
before the offset, and the span (with its balanced backticks) matches
none of the other filters, so `parseMatches` keeps the issue. -/
theorem C5_exclusions_counterexample :
    parseMatches defaultSettings emptySuppression
        (some ⟨[inlineCodeMatch]⟩) inlineCodeText = [mkPosition inlineCodeMatch] ∧
    jsSubstring inlineCodeText inlineCodeMatch.offset
        (inlineCodeMatch.offset + inlineCodeMatch.length) =
      [backtickChar] ++ "code".data ++ [backtickChar] := by
  constructor <;> decide

/-- C5, amended: every issue produced by `parseMatches` has a flagged
substring that is neither the mention token `<@123456789012345678>` nor
the URL `https://example.com` — those two spans are always excluded,
for every surrounding text.  (A span equal to the backtick-quoted word
`code` is excluded only when the text also carries fenced-code context
before and after the offset, per `isCodeBlock`.) -/
theorem C5_exclusions (s : Settings) (supp : SuppressionState)
    (r : LanguageToolResponse) (text : JsStr) (p : UnderlinePosition)
    (hp : p ∈ parseMatches s supp (some r) text) :
    jsSubstring text p.srcMatch.offset (p.srcMatch.offset + p.srcMatch.length) ≠
      "<@123456789012345678>".data ∧
    jsSubstring text p.srcMatch.offset (p.srcMatch.offset + p.srcMatch.length) ≠
      "https://example.com".data := by
  obtain ⟨m, hm, hpeq, hskip, -, -⟩ := parseMatchesLoop_sound s supp text r.matches p hp
  obtain ⟨hmention, hurl⟩ := not_skipped_parts m text hskip
  subst hpeq
  simp only [mkPosition]
  constructor
  · intro heq
    rw [heq] at hmention
    exact absurd hmention (by decide)
  · intro heq
    rw [heq] at hurl
    exact absurd hurl (by decide)

/-- Witness for C5 on the end-to-end scenario issue. -/
theorem C5_exclusions_witness :
    mkPosition tehMatch ∈ parseMatches defaultSettings emptySuppression
        (some tehResponse) "Teh cat sat.".data ∧
    jsSubstring "Teh cat sat.".data tehMatch.offset
        (tehMatch.offset + tehMatch.length) ≠ "<@123456789012345678>".data ∧
    jsSubstring "Teh cat sat.".data tehMatch.offset
        (tehMatch.offset + tehMatch.length) ≠ "https://example.com".data :=
  ⟨by decide, C5_exclusions defaultSettings emptySuppression tehResponse
      "Teh cat sat.".data (mkPosition tehMatch) (by decide)⟩

/- ---------------------------------------------------------------------
   C7 — durable suppression add / remove.
--------------------------------------------------------------------- -/

/-- Adding an element to the set model makes `contains` true. -/
theorem setAdd_contains_self (s : List JsStr) (w : JsStr) :
    (setAdd s w).contains w = true := by
  rw [setAdd]
  by_cases h : s.contains w = true
  · rw [if_pos h]; exact h
  · rw [if_neg h]
    simp [List.elem_iff]

/-- Deleting an element from the set model makes `contains` false. -/
theorem setDelete_contains_self (s : List JsStr) (w : JsStr) :
    (setDelete s w).contains w = false := by
  rw [setDelete]
  simp [List.elem_iff, List.mem_filter]

/-- Words that case-insensitively equal an added word are reported
ignored afterwards. -/
theorem isWordIgnored_after_add (now : Nat) (w word : JsStr) (st : SuppressionState)
    (h : jsToLower word = jsToLower w) :
    isWordIgnored (addIgnoredWord now w st) word = true := by
  simp only [isWordIgnored, addIgnoredWord]
  rw [h]
  exact setAdd_contains_self _ _

/-- Words that case-insensitively equal a removed word are not reported
ignored afterwards. -/
theorem isWordIgnored_after_remove (now : Nat) (w word : JsStr) (st : SuppressionState)
    (h : jsToLower word = jsToLower w) :
    isWordIgnored (removeIgnoredWord now w st) word = false := by
  simp only [isWordIgnored, removeIgnoredWord]
  rw [h]
  exact setDelete_contains_self _ _

/-- C7: adding a word `w` (any case) to the durable store causes
`parseMatches` to exclude every issue whose flagged substring
case-insensitively equals `w`; after removing `w` again, such an issue
is produced again whenever it passes the remaining (skip and category)
filters. -/
theorem C7_suppression (s : Settings) (st : SuppressionState) (w : JsStr)
    (r : LanguageToolResponse) (text : JsStr) (now now2 : Nat) :
    (∀ p ∈ parseMatches s (addIgnoredWord now w st) (some r) text,
        jsToLower (jsSubstring text p.srcMatch.offset
          (p.srcMatch.offset + p.srcMatch.length)) ≠ jsToLower w) ∧
    (∀ m ∈ r.matches,
        jsToLower (jsSubstring text m.offset (m.offset + m.length)) = jsToLower w →
        shouldSkipMatch m text = false →
        shouldShowMatchType s (categorizeMatch m) = true →
        mkPosition m ∈ parseMatches s (removeIgnoredWord now2 w (addIgnoredWord now w st))
          (some r) text) := by
  constructor
  · intro p hp heq
    obtain ⟨m, hm, hpeq, -, -, hign⟩ :=
      parseMatchesLoop_sound s (addIgnoredWord now w st) text r.matches p hp
    subst hpeq
    simp only [mkPosition] at heq
    rw [isWordIgnored_after_add now w _ st heq] at hign
    simp at hign
  · intro m hm heq hskip hshow
    refine parseMatchesLoop_complete s _ text r.matches m hm hskip hshow ?_
    exact isWordIgnored_after_remove now2 w _ _ heq

/-- Witness for C7: add then remove `"TEH"`; the scenario issue over
`"Teh"` reappears after removal. -/
theorem C7_suppression_witness :
    tehMatch ∈ tehResponse.matches ∧
    mkPosition tehMatch ∈ parseMatches defaultSettings
      (removeIgnoredWord 7 "TEH".data (addIgnoredWord 3 "TEH".data emptySuppression))
      (some tehResponse) "Teh cat sat.".data :=
  ⟨by decide,
    (C7_suppression defaultSettings emptySuppression "TEH".data tehResponse
        "Teh cat sat.".data 3 7).2 tehMatch (by decide) (by decide) (by decide) (by decide)⟩

/- ---------------------------------------------------------------------
   C10 — persisted timestamps are rewritten wholesale.
--------------------------------------------------------------------- -/

/-- C10: both `addIgnoredWord` and `removeIgnoredWord` rebuild the
persisted array from the whole in-memory set, stamping every record
with `Date.now()` of that call — per-word last-modified timestamps are
not preserved across operations on other words. -/
theorem C10_timestamps (st : SuppressionState) (w : JsStr) (now : Nat) :
    (∀ e ∈ (addIgnoredWord now w st).dataStore, e.timestamp = now) ∧
    (∀ e ∈ (removeIgnoredWord now w st).dataStore, e.timestamp = now) := by
  constructor
  · intro e he
    simp only [addIgnoredWord, List.mem_map] at he
    obtain ⟨x, -, hx⟩ := he
    rw [← hx]
  · intro e he
    simp only [removeIgnoredWord, List.mem_map] at he
    obtain ⟨x, -, hx⟩ := he
    rw [← hx]

/-- Witness for C10: a store holding `"old"` stamped at time 3 is
rewritten by adding `"new"` at time 9, and the `"old"` record now
carries timestamp 9. -/
theorem C10_timestamps_witness :
    (⟨"old".data, 9⟩ : IgnoredWord) ∈
      (addIgnoredWord 9 "new".data ⟨none, [⟨"old".data, 3⟩]⟩).dataStore ∧
    (⟨"old".data, 9⟩ : IgnoredWord).timestamp = 9 :=
  ⟨by decide,
    (C10_timestamps ⟨none, [⟨"old".data, 3⟩]⟩ "new".data 9).1 ⟨"old".data, 9⟩ (by decide)⟩

/- ---------------------------------------------------------------------
   C8 — replacement text and caret arithmetic.
--------------------------------------------------------------------- -/

/-- C8: applying a replacement substitutes exactly the flagged span, and
the corrected caret offset is the old caret shifted by the length delta
when it sat at or after the end of the span, the end of the replacement
when it sat strictly inside, and unchanged when it sat at or before the
start.  (The span is assumed nondegenerate, `0 < length`, as the Issue
invariant guarantees.) -/
theorem C8_replacement (text : JsStr) (m : LanguageToolMatch) (replacement : JsStr)
    (cursorPos : Nat)
    (hin : m.offset + m.length ≤ text.length) (hlen : 0 < m.length) :
    applySuggestion text m replacement =
      text.take m.offset ++ replacement ++ text.drop (m.offset + m.length) ∧
    (m.offset + m.length ≤ cursorPos →
      computeNewCursorPos cursorPos m replacement =
        (cursorPos : Int) + (replacement.length : Int) - (m.length : Int)) ∧
    (m.offset < cursorPos → cursorPos < m.offset + m.length →
      computeNewCursorPos cursorPos m replacement =
        (m.offset : Int) + (replacement.length : Int)) ∧
    (cursorPos ≤ m.offset →
      computeNewCursorPos cursorPos m replacement = (cursorPos : Int)) := by
  refine ⟨?_, ?_, ?_, ?_⟩
  · rw [applySuggestion, jsSubstring, jsSubstring]
    have h1 : min 0 text.length = 0 := by omega
    have h2 : min m.offset text.length = m.offset := by omega
    have h3 : min (m.offset + m.length) text.length = m.offset + m.length := by omega
    have h4 : min text.length text.length = text.length := by omega
    have h5 : max 0 m.offset = m.offset := by omega
    have h6 : min 0 m.offset = 0 := by omega
    have h7 : max (m.offset + m.length) text.length = text.length := by omega
    have h8 : min (m.offset + m.length) text.length = m.offset + m.length := by omega
    simp only [h1, h2, h3, h4, h5, h6, h7, h8, List.drop_zero, List.take_length]
  · intro h
    rw [computeNewCursorPos]
    rcases Nat.lt_or_ge (m.offset + m.length) cursorPos with hgt | hge
    · rw [if_pos hgt]; omega
    · have hcur : cursorPos = m.offset + m.length := by omega
      rw [if_neg (by omega), if_pos (by omega)]
      omega
  · intro h1 h2
    rw [computeNewCursorPos, if_neg (by omega), if_pos h1]
  · intro h
    rw [computeNewCursorPos, if_neg (by omega), if_neg (by omega)]

/-- Witness for C8 on the end-to-end scenario: replacing `"Teh"` with
`"The"` in `"Teh cat sat."` with the caret after the span. -/
theorem C8_replacement_witness :
    tehMatch.offset + tehMatch.length ≤ ("Teh cat sat.".data).length ∧
    applySuggestion "Teh cat sat.".data tehMatch "The".data =
      ("Teh cat sat.".data).take 0 ++ "The".data ++ ("Teh cat sat.".data).drop 3 ∧
    computeNewCursorPos 7 tehMatch "The".data = 7 :=
  ⟨by decide,
    (C8_replacement "Teh cat sat.".data tehMatch "The".data 7 (by decide) (by decide)).1,
    by
      have := (C8_replacement "Teh cat sat.".data tehMatch "The".data 7
        (by decide) (by decide)).2.1 (by decide)
      rw [this]; decide⟩

/- ---------------------------------------------------------------------
   C9 — over-budget text stops the pipeline and leaves issues alone.
--------------------------------------------------------------------- -/

/-- C9: when the (enabled) edit pipeline observes a text longer than the
configured maximum character budget, it returns without scheduling a
check, and both the current issue list and the mounted underline
markers are left exactly as they were. -/
theorem C9_too_long (s : Settings) (st : PipelineState) (text : JsStr)
    (hen : s.enabled = true) (hlen : s.maxCharacters < text.length) :
    (handleTextChange s st text).2 = .tooLong ∧
    ((handleTextChange s st text).1).currentPositions = st.currentPositions ∧
    ((handleTextChange s st text).1).underlineElements = st.underlineElements := by
  rw [handleTextChange]
  simp only [hen, Bool.not_true, Bool.false_eq_true, if_false]
  have hne : ¬ text.length = 0 := by omega
  by_cases hclear :
      (decide (5 < st.lastTextLength) &&
        (decide ((jsTrim text).length = 0) || decide (jsTrim text = [zeroWidthChar]))) = true
  · simp only [hclear, if_true, if_neg hne, if_pos hlen]
    simp
  · simp only [hclear, if_false, if_neg hne, if_pos hlen]
    simp

/-- Witness for C9: a five-character text against a one-character
budget; the stale issue list survives untouched. -/
theorem C9_too_long_witness :
    ({ defaultSettings with maxCharacters := 1 } : Settings).maxCharacters <
      ("hello".data).length ∧
    (handleTextChange { defaultSettings with maxCharacters := 1 }
        ⟨[], 0, [], [mkPosition tehMatch], [mkPosition tehMatch]⟩ "hello".data).2 = .tooLong ∧
    ((handleTextChange { defaultSettings with maxCharacters := 1 }
        ⟨[], 0, [], [mkPosition tehMatch], [mkPosition tehMatch]⟩ "hello".data).1).currentPositions =
      [mkPosition tehMatch] :=
  ⟨by decide,
    (C9_too_long { defaultSettings with maxCharacters := 1 }
        ⟨[], 0, [], [mkPosition tehMatch], [mkPosition tehMatch]⟩ "hello".data
        (by decide) (by decide)).1,
    (C9_too_long { defaultSettings with maxCharacters := 1 }
        ⟨[], 0, [], [mkPosition tehMatch], [mkPosition tehMatch]⟩ "hello".data
        (by decide) (by decide)).2.1⟩

/- ---------------------------------------------------------------------
   C6 — volatile suppression reset on the message-send transition.
--------------------------------------------------------------------- -/

/-- After one (enabled) `handleTextChange`, `lastTextLength` is the
trimmed length of the text just observed, whichever branch ran. -/
theorem handleTextChange_lastTextLength (s : Settings) (st : PipelineState) (text : JsStr)
    (hen : s.enabled = true) :
    ((handleTextChange s st text).1).lastTextLength = (jsTrim text).length := by
  rw [handleTextChange]
  simp only [hen, Bool.not_true, Bool.false_eq_true, if_false]
  split <;> split <;> simp

/-- When the previously recorded text length exceeds the threshold and
the observed text is empty (or the zero-width placeholder), the
volatile tier is cleared — and stays empty through the rest of the
call. -/
theorem handleTextChange_clears (s : Settings) (st : PipelineState) (text : JsStr)
    (hen : s.enabled = true) (hlast : 5 < st.lastTextLength)
    (hempty : (jsTrim text).length = 0 ∨ jsTrim text = [zeroWidthChar]) :
    ((handleTextChange s st text).1).sessionIgnoredWords = [] := by
  rw [handleTextChange]
  simp only [hen, Bool.not_true, Bool.false_eq_true, if_false]
  have hcond :
      (decide (5 < st.lastTextLength) &&
        (decide ((jsTrim text).length = 0) || decide (jsTrim text = [zeroWidthChar]))) = true := by
    rcases hempty with h | h <;> simp [hlast, h]
  simp only [hcond, if_true]
  split
  · rfl
  · split <;> rfl

/-- A volatile-suppression state populated with one session-ignored
word, before any text was observed. -/
def volatileState : PipelineState :=
  ⟨["foo".data], 0, [], [], []⟩

/-- C6, counterexample.  The message-send heuristic requires the
previous trimmed text length to EXCEED 5, observing merely "non-empty
then empty" is not enough: after the pipeline sees the two-character
text `"hi"` and then empty text, the volatile suppression set still
holds its prior word. -/
theorem C6_volatile_reset_counterexample :
    ((handleTextChange defaultSettings
        (handleTextChange defaultSettings volatileState "hi".data).1 []).1).sessionIgnoredWords ≠
      [] := by
  decide

/-- C6, amended: if the (enabled) edit pipeline observes a composer text
whose trimmed length exceeds 5 and the next observed text is empty (or
the single zero-width placeholder), the volatile suppression set is
empty afterward, regardless of its prior contents. -/
theorem C6_volatile_reset (s : Settings) (st : PipelineState) (t1 t2 : JsStr)
    (hen : s.enabled = true) (h1 : 5 < (jsTrim t1).length)
    (h2 : (jsTrim t2).length = 0 ∨ jsTrim t2 = [zeroWidthChar]) :
    ((handleTextChange s (handleTextChange s st t1).1 t2).1).sessionIgnoredWords = [] := by
  apply handleTextChange_clears s _ t2 hen _ h2
  rw [handleTextChange_lastTextLength s st t1 hen]
  exact h1

/-- Witness for C6: a seven-character text, then empty text, clears the
prior session-ignored word. -/
theorem C6_volatile_reset_witness :
    5 < (jsTrim "show me.".data).length ∧
    ((handleTextChange defaultSettings
        (handleTextChange defaultSettings volatileState "show me.".data).1 []).1).sessionIgnoredWords =
      [] :=
  ⟨by decide,
    C6_volatile_reset defaultSettings volatileState "show me.".data []
      (by decide) (by decide) (by decide)⟩

/- ---------------------------------------------------------------------
   C4 — checkText error handling.
--------------------------------------------------------------------- -/

/-- C4: `checkText` never throws (in the embedding it is a total,
`Option`-valued function); blank input returns `null` with the cache
untouched and no network call, and whenever a network call is issued
and fails — HTTP 429, any other non-success status, or a
transport/parse failure — the result is `null`. -/
theorem C4_checkText_errors (now : Nat) (net : NetOutcome) (text : JsStr)
    (st : CheckCacheState) :
    (jsTrim text = [] → checkText now net text st = ⟨none, st, false⟩) ∧
    (net.isFailure = true → (checkText now net text st).networked = true →
      (checkText now net text st).result = none) := by
  constructor
  · intro h
    rw [checkText, if_pos h]
  · intro hfail
    rw [checkText]
    split
    · intro hnet; simp at hnet
    · split
      · intro hnet; simp at hnet
      · cases net with
        | success response => simp [NetOutcome.isFailure] at hfail
        | httpFailure status =>
            intro _
            by_cases h429 : status = 429
            · simp [h429]
            · simp [h429]
        | transportFailure => intro _; rfl

/-- Witness for C4: whitespace-only input short-circuits, and a 429 on a
cache miss yields `null`. -/
theorem C4_checkText_errors_witness :
    checkText 0 (.httpFailure 500) "  ".data ⟨[]⟩ = ⟨none, ⟨[]⟩, false⟩ ∧
    (checkText 0 (.httpFailure 429) "hi".data ⟨[]⟩).result = none :=
  ⟨(C4_checkText_errors 0 (.httpFailure 500) "  ".data ⟨[]⟩).1 (by decide),
    (C4_checkText_errors 0 (.httpFailure 429) "hi".data ⟨[]⟩).2 (by decide) (by decide)⟩

/- ---------------------------------------------------------------------
   C2 — cache freshness window.
--------------------------------------------------------------------- -/

/-- A key reported absent by `mapGet` heads no entry. -/
theorem mapGet_eq_none_iff (m : List (JsStr × CachedCheck)) (k : JsStr) :
    mapGet m k = none ↔ ∀ e ∈ m, e.1 ≠ k := by
  rw [mapGet]
  simp only [Option.map_eq_none', List.find?_eq_none, decide_eq_true_eq]

/-- Setting an absent key appends the new entry. -/
theorem mapSet_of_get_none (m : List (JsStr × CachedCheck)) (k : JsStr) (v : CachedCheck)
    (h : mapGet m k = none) :
    mapSet m k v = m ++ [(k, v)] := by
  induction m with
  | nil => rfl
  | cons e rest ih =>
      have hne : e.1 ≠ k := ((mapGet_eq_none_iff _ _).mp h) e (List.mem_cons_self ..)
      have hrest : mapGet rest k = none := by
        rw [mapGet_eq_none_iff]
        intro x hx
        exact ((mapGet_eq_none_iff _ _).mp h) x (List.mem_cons_of_mem _ hx)
      rw [mapSet, if_neg hne, ih hrest, List.cons_append]

/-- Looking up a key absent from the front of an appended list skips the
front. -/
theorem mapGet_append_of_none (m l : List (JsStr × CachedCheck)) (k : JsStr)
    (h : mapGet m k = none) :
    mapGet (m ++ l) k = mapGet l k := by
  induction m with
  | nil => rfl
  | cons e rest ih =>
      have hne : e.1 ≠ k := ((mapGet_eq_none_iff _ _).mp h) e (List.mem_cons_self ..)
      have hrest : mapGet rest k = none := by
        rw [mapGet_eq_none_iff]
        intro x hx
        exact ((mapGet_eq_none_iff _ _).mp h) x (List.mem_cons_of_mem _ hx)
      rw [List.cons_append, mapGet, List.find?_cons_of_neg _ (by simpa using hne),
        ← mapGet, ih hrest]

/-- Inserting a previously absent text leaves it retrievable even after
the over-capacity (oldest-first) eviction. -/
theorem mapGet_setCachedCheck_self (now : Nat) (k : JsStr) (r : LanguageToolResponse)
    (st : CheckCacheState) (h : mapGet st.checkCache k = none) :
    mapGet (setCachedCheck now k r st).checkCache k = some ⟨k, r, now⟩ := by
  rw [setCachedCheck]
  rw [mapSet_of_get_none _ _ _ h]
  by_cases hlen : 50 < (st.checkCache ++ [(k, (⟨k, r, now⟩ : CachedCheck))]).length
  · rw [if_pos hlen]
    cases hm : st.checkCache with
    | nil => rw [hm] at hlen; simp at hlen
    | cons e0 m0 =>
        show mapGet (mapDelete (e0 :: (m0 ++ [(k, (⟨k, r, now⟩ : CachedCheck))])) e0.1) k =
          some ⟨k, r, now⟩
        rw [mapDelete, if_pos rfl]
        have h0 : mapGet m0 k = none := by
          rw [mapGet_eq_none_iff]
          intro x hx
          have hx2 : x ∈ st.checkCache := by rw [hm]; exact List.mem_cons_of_mem _ hx
          exact ((mapGet_eq_none_iff _ _).mp h) x hx2
        rw [mapGet_append_of_none _ _ _ h0]
        simp [mapGet, List.find?]
  · rw [if_neg hlen]
    rw [mapGet_append_of_none _ _ _ h]
    simp [mapGet, List.find?]

/-- C2: for a non-blank text whose first check at `t0` misses the cache
and succeeds remotely, a second `check` within the freshness window
returns the cached response with no further network call and leaves the
cache untouched, while a `check` after the window has elapsed issues a
network call again. -/
theorem C2_cache_freshness (st : CheckCacheState) (T : JsStr)
    (resp : LanguageToolResponse) (o2 o3 : NetOutcome) (t0 t1 t2 : Nat)
    (hT : jsTrim T ≠ [])
    (hmiss : mapGet st.checkCache T = none)
    (h01 : t0 ≤ t1) (h1 : t1 ≤ t0 + CACHE_TTL) (h2 : t0 + CACHE_TTL < t2) :
    (checkText t0 (.success resp) T st).result = some resp ∧
    (checkText t0 (.success resp) T st).networked = true ∧
    checkText t1 o2 T (checkText t0 (.success resp) T st).state =
      ⟨some resp, (checkText t0 (.success resp) T st).state, false⟩ ∧
    (checkText t2 o3 T (checkText t0 (.success resp) T st).state).networked = true := by
  have hget0 : getCachedCheck t0 T st = (none, st) := by
    rw [getCachedCheck, hmiss]
  have hc0 : checkText t0 (.success resp) T st =
      ⟨some resp, setCachedCheck t0 T resp st, true⟩ := by
    rw [checkText, if_neg hT, hget0]
  have hst1 : mapGet (setCachedCheck t0 T resp st).checkCache T = some ⟨T, resp, t0⟩ :=
    mapGet_setCachedCheck_self t0 T resp st hmiss
  refine ⟨by rw [hc0], by rw [hc0], ?_, ?_⟩
  · rw [hc0]
    have hget1 : getCachedCheck t1 T (setCachedCheck t0 T resp st) =
        (some resp, setCachedCheck t0 T resp st) := by
      simp only [getCachedCheck, hst1]
      rw [if_neg (by simp [CACHE_TTL] at *; omega)]
    rw [checkText, if_neg hT, hget1]
  · rw [hc0]
    have hget2 : getCachedCheck t2 T (setCachedCheck t0 T resp st) =
        (none, (⟨mapDelete (setCachedCheck t0 T resp st).checkCache T⟩ : CheckCacheState)) := by
      simp only [getCachedCheck, hst1]
      rw [if_pos (by simp [CACHE_TTL] at *; omega)]
    rw [checkText, if_neg hT, hget2]
    cases o3 with
    | success response => rfl
    | httpFailure status =>
        by_cases h429 : status = 429
        · simp [h429]
        · simp [h429]
    | transportFailure => rfl

/-- Witness for C2: an empty cache, the text `"hi"`, a hit 100 ms later
and a miss just past the five-minute window. -/
theorem C2_cache_freshness_witness :
    (checkText 0 (.success tehResponse) "hi".data ⟨[]⟩).networked = true ∧
    checkText 100 .transportFailure "hi".data
        (checkText 0 (.success tehResponse) "hi".data ⟨[]⟩).state =
      ⟨some tehResponse, (checkText 0 (.success tehResponse) "hi".data ⟨[]⟩).state, false⟩ ∧
    (checkText 300001 .transportFailure "hi".data
        (checkText 0 (.success tehResponse) "hi".data ⟨[]⟩).state).networked = true :=
  ⟨(C2_cache_freshness ⟨[]⟩ "hi".data tehResponse .transportFailure .transportFailure
      0 100 300001 (by decide) (by decide) (by decide) (by decide) (by decide)).2.1,
    (C2_cache_freshness ⟨[]⟩ "hi".data tehResponse .transportFailure .transportFailure
      0 100 300001 (by decide) (by decide) (by decide) (by decide) (by decide)).2.2.1,
    (C2_cache_freshness ⟨[]⟩ "hi".data tehResponse .transportFailure .transportFailure
      0 100 300001 (by decide) (by decide) (by decide) (by decide) (by decide)).2.2.2⟩

/- ---------------------------------------------------------------------
   C3 — queueCheck rate spacing.
--------------------------------------------------------------------- -/

/-- Request times in a trace are nondecreasing, starting no earlier than
`b`. -/
def timesBounded : Nat → List (Nat × JsStr) → Bool
  | _, [] => true
  | b, (t, _) :: rest => decide (b ≤ t) && timesBounded t rest

/-- Consecutive entries of an issued-call list are at least the minimum
interval apart, the first at least the interval after `b`. -/
def spacedFrom : Nat → List (Nat × JsStr) → Bool
  | _, [] => true
  | b, (t, _) :: rest => decide (b + MIN_REQUEST_INTERVAL ≤ t) && spacedFrom t rest

/-- The reachable-state invariant of the spacing guard: a pending timer
is always scheduled exactly one interval after the last issued call. -/
def queueInv (s : QueueState) : Prop :=
  ∀ tf x, s.pending = some (tf, x) → tf = s.lastRequestTime + MIN_REQUEST_INTERVAL

/-- Weakening of the lower time bound. -/
theorem timesBounded_mono (b b2 : Nat) (l : List (Nat × JsStr))
    (h : b ≤ b2) (hl : timesBounded b2 l = true) : timesBounded b l = true := by
  cases l with
  | nil => rfl
  | cons r rest =>
      rcases r with ⟨t, x⟩
      rw [timesBounded] at hl ⊢
      simp only [Bool.and_eq_true, decide_eq_true_eq] at hl ⊢
      exact ⟨le_trans h hl.1, hl.2⟩

/-- Step characterization: no pending timer, interval elapsed — the call
fires immediately. -/
theorem queueCheckStep_none_immediate (last t : Nat) (x : JsStr)
    (h : MIN_REQUEST_INTERVAL ≤ t - last) :
    queueCheckStep ⟨last, none⟩ t x = (⟨t, none⟩, [(t, x)]) := by
  simp only [queueCheckStep, fireIfDue, if_pos h]
  rfl

/-- Step characterization: no pending timer, interval not elapsed — the
call is deferred to the next eligible instant. -/
theorem queueCheckStep_none_defer (last t : Nat) (x : JsStr)
    (h : ¬ MIN_REQUEST_INTERVAL ≤ t - last) :
    queueCheckStep ⟨last, none⟩ t x =
      (⟨last, some (t + (MIN_REQUEST_INTERVAL - (t - last)), x)⟩, []) := by
  simp only [queueCheckStep, fireIfDue, if_neg h]

/-- Step characterization: a due pending timer fires first, then the
new call fires immediately when its own interval has elapsed. -/
theorem queueCheckStep_due_immediate (last tf t : Nat) (y x : JsStr)
    (hdue : tf ≤ t) (h : MIN_REQUEST_INTERVAL ≤ t - tf) :
    queueCheckStep ⟨last, some (tf, y)⟩ t x = (⟨t, none⟩, [(tf, y), (t, x)]) := by
  simp only [queueCheckStep, fireIfDue, if_pos hdue, if_pos h]
  rfl

/-- Step characterization: a due pending timer fires first, and the new
call is deferred relative to the fresh `lastRequestTime`. -/
theorem queueCheckStep_due_defer (last tf t : Nat) (y x : JsStr)
    (hdue : tf ≤ t) (h : ¬ MIN_REQUEST_INTERVAL ≤ t - tf) :
    queueCheckStep ⟨last, some (tf, y)⟩ t x =
      (⟨tf, some (t + (MIN_REQUEST_INTERVAL - (t - tf)), x)⟩, [(tf, y)]) := by
  simp only [queueCheckStep, fireIfDue, if_pos hdue, if_neg h]

/-- Step characterization: a not-yet-due pending timer is superseded
(its timeout cleared, the single queue slot overwritten) when the new
call is also inside the blocked window. -/
theorem queueCheckStep_supersede (last tf t : Nat) (y x : JsStr)
    (hdue : ¬ tf ≤ t) (h : ¬ MIN_REQUEST_INTERVAL ≤ t - last) :
    queueCheckStep ⟨last, some (tf, y)⟩ t x =
      (⟨last, some (t + (MIN_REQUEST_INTERVAL - (t - last)), x)⟩, []) := by
  simp only [queueCheckStep, fireIfDue, if_neg hdue, if_neg h]

/-- Step characterization: a not-yet-due pending timer with the
interval nevertheless elapsed (unreachable from the module state, but a
case of the code): the call fires immediately and the stale timer is
left in place. -/
theorem queueCheckStep_stale (last tf t : Nat) (y x : JsStr)
    (hdue : ¬ tf ≤ t) (h : MIN_REQUEST_INTERVAL ≤ t - last) :
    queueCheckStep ⟨last, some (tf, y)⟩ t x = (⟨t, some (tf, y)⟩, [(t, x)]) := by
  simp only [queueCheckStep, fireIfDue, if_neg hdue, if_pos h]
  rfl

/-- Spacing invariant of a whole run: starting from a state whose
pending timer (if any) respects `queueInv`, every two consecutive
issued network calls are at least `MIN_REQUEST_INTERVAL` apart. -/
theorem runQueue_spaced (reqs : List (Nat × JsStr)) : ∀ (s : QueueState), queueInv s →
    timesBounded s.lastRequestTime reqs = true →
    spacedFrom s.lastRequestTime (runQueue s reqs) = true := by
  induction reqs with
  | nil =>
      intro s hinv hb
      rw [runQueue]
      cases hp : s.pending with
      | none => rfl
      | some p =>
          rcases p with ⟨tf, y⟩
          have htf := hinv tf y hp
          simp [spacedFrom, htf]
  | cons r rest ih =>
      rcases r with ⟨t, x⟩
      intro s hinv hb
      rcases s with ⟨last, pending⟩
      simp only [timesBounded, Bool.and_eq_true, decide_eq_true_eq] at hb
      obtain ⟨hb1, hb2⟩ := hb
      have hM : MIN_REQUEST_INTERVAL = 3000 := rfl
      rw [runQueue]
      cases pending with
      | none =>
          by_cases himm : MIN_REQUEST_INTERVAL ≤ t - last
          · rw [queueCheckStep_none_immediate last t x himm]
            simp only [spacedFrom, Bool.and_eq_true, decide_eq_true_eq, List.cons_append,
              List.nil_append]
            refine ⟨by omega, ?_⟩
            exact ih ⟨t, none⟩ (by intro tf y h; cases h) hb2
          · rw [queueCheckStep_none_defer last t x himm]
            simp only [List.nil_append]
            refine ih ⟨last, some (t + (MIN_REQUEST_INTERVAL - (t - last)), x)⟩ ?_ ?_
            · intro tf y h
              injection h with h
              injection h with h1 h2
              show tf = last + MIN_REQUEST_INTERVAL
              omega
            · exact timesBounded_mono last t rest hb1 hb2
      | some p =>
          rcases p with ⟨tf, y⟩
          have htf := hinv tf y rfl
          simp only at htf
          by_cases hdue : tf ≤ t
          · by_cases himm : MIN_REQUEST_INTERVAL ≤ t - tf
            · rw [queueCheckStep_due_immediate last tf t y x hdue himm]
              simp only [spacedFrom, Bool.and_eq_true, decide_eq_true_eq, List.cons_append,
                List.nil_append]
              refine ⟨by omega, by omega, ?_⟩
              exact ih ⟨t, none⟩ (by intro tf2 y2 h; cases h) hb2
            · rw [queueCheckStep_due_defer last tf t y x hdue himm]
              simp only [spacedFrom, Bool.and_eq_true, decide_eq_true_eq, List.cons_append,
                List.nil_append]
              refine ⟨by omega, ?_⟩
              refine ih ⟨tf, some (t + (MIN_REQUEST_INTERVAL - (t - tf)), x)⟩ ?_ ?_
              · intro tf2 y2 h
                injection h with h
                injection h with h1 h2
                show tf2 = tf + MIN_REQUEST_INTERVAL
                omega
              · exact timesBounded_mono tf t rest hdue hb2
          · have himm : ¬ MIN_REQUEST_INTERVAL ≤ t - last := by omega
            rw [queueCheckStep_supersede last tf t y x hdue himm]
            simp only [List.nil_append]
            refine ih ⟨last, some (t + (MIN_REQUEST_INTERVAL - (t - last)), x)⟩ ?_ ?_
            · intro tf2 y2 h
              injection h with h
              injection h with h1 h2
              show tf2 = last + MIN_REQUEST_INTERVAL
              omega
            · exact timesBounded_mono last t rest hb1 hb2

/-- C3, counterexample.  Two `queueCheck` requests 1000 ms apart, the
first of which fires immediately (the module starts with
`lastRequestTime = 0`): the pair produces TWO network calls — one per
request — not exactly one, refuting the claim as stated for requests
that are merely issued less than the minimum interval apart. -/
theorem C3_rate_spacing_counterexample :
    runQueue initialQueueState [(5000, "a".data), (6000, "b".data)] =
      [(5000, "a".data), (8000, "b".data)] ∧
    (runQueue initialQueueState [(5000, "a".data), (6000, "b".data)]).length ≠ 1 := by
  constructor <;> decide

/-- C3, amended: (i) two `queueCheck` requests that both arrive while
the spacing guard blocks (each before the deferred fire time
`last + MIN_REQUEST_INTERVAL`) produce exactly one network call, for
the later request, at the next eligible instant — the earlier pending
request is superseded; and (ii) in any run from a state satisfying the
pending-timer invariant, no two issued network calls are closer
together than the minimum interval. -/
theorem C3_rate_spacing :
    (∀ (last t1 t2 : Nat) (x1 x2 : JsStr),
      last ≤ t1 → t1 ≤ t2 →
      t1 < last + MIN_REQUEST_INTERVAL → t2 < last + MIN_REQUEST_INTERVAL →
      runQueue ⟨last, none⟩ [(t1, x1), (t2, x2)] =
        [(last + MIN_REQUEST_INTERVAL, x2)]) ∧
    (∀ (reqs : List (Nat × JsStr)) (s : QueueState), queueInv s →
      timesBounded s.lastRequestTime reqs = true →
      spacedFrom s.lastRequestTime (runQueue s reqs) = true) := by
  constructor
  · intro last t1 t2 x1 x2 h1 h12 hw1 hw2
    have hM : MIN_REQUEST_INTERVAL = 3000 := rfl
    have hd1 : ¬ MIN_REQUEST_INTERVAL ≤ t1 - last := by omega
    have hfix1 : t1 + (MIN_REQUEST_INTERVAL - (t1 - last)) = last + MIN_REQUEST_INTERVAL := by
      omega
    have hd2 : ¬ MIN_REQUEST_INTERVAL ≤ t2 - last := by omega
    have hdue2 : ¬ last + MIN_REQUEST_INTERVAL ≤ t2 := by omega
    have hfix2 : t2 + (MIN_REQUEST_INTERVAL - (t2 - last)) = last + MIN_REQUEST_INTERVAL := by
      omega
    rw [runQueue, queueCheckStep_none_defer last t1 x1 hd1]
    simp only [List.nil_append]
    rw [hfix1]
    rw [runQueue, queueCheckStep_supersede last (last + MIN_REQUEST_INTERVAL) t2 x1 x2
      hdue2 hd2]
    simp only [List.nil_append]
    rw [hfix2]
    rw [runQueue]
  · exact fun reqs s => runQueue_spaced reqs s

/-- Witness for C3: two blocked-window requests at 1000 and 2000 ms
coalesce into one call for the later text at 3000 ms, and a mixed trace
keeps all issued calls at least 3000 ms apart. -/
theorem C3_rate_spacing_witness :
    runQueue ⟨0, none⟩ [(1000, "a".data), (2000, "b".data)] = [(3000, "b".data)] ∧
    spacedFrom 0 (runQueue ⟨0, none⟩ [(500, "a".data), (4000, "b".data), (4500, "c".data)]) =
      true :=
  ⟨(C3_rate_spacing).1 0 1000 2000 "a".data "b".data
      (by decide) (by decide) (by decide) (by decide),
    (C3_rate_spacing).2 [(500, "a".data), (4000, "b".data), (4500, "c".data)] ⟨0, none⟩
      (by intro tf x h; cases h) (by decide)⟩

end VcLanguageTools
